import Mathlib

/-!
# gitamped/stem: database bootstrap and integration-test harness

A shallow embedding of the three Go packages of the repository

* `data/nosql/dbschema` (`Migrate`, `Seed`),
* `database` (`Open`, `CreateDatabase`, `StatusCheck`),
* `data/nosql/dbtest` (`StopDB`, `NewUnit` and its teardown closure,
  `NewIntegration`, `NewAuth`, `Token`, `InvalidToken`),

followed by theorems about them.

The Go code talks to collaborators that live outside the repository (the
ArangoDB driver, the wall clock, the Docker process manager, the token
library).  They are modelled as explicit state machines: every call receives
the collaborator state and the current time (a wall clock in nanoseconds, the
unit of Go `time.Duration`), and answers with a new state, the
time the call took and its Go results.  Every function of the repository
returns, besides its Go results, the list of effects it issued, oldest first.
Go `error` values are represented by their `Error()` text, `nil` by `none`.
-/

namespace time

/-- Go `time.Duration`: a signed 64-bit count of nanoseconds. -/
abbrev Duration := Int

/-- Two's-complement wrap-around of a mathematical integer to Go `int64` (and
to Go `int` on the 64-bit platforms the harness runs on). -/
def wrap64 (x : Int) : Int := (x + 2 ^ 63) % 2 ^ 64 - 2 ^ 63

/-- Go `time.Millisecond`, in nanoseconds. -/
def Millisecond : Duration := 1000000

/-- Go `time.Second`, in nanoseconds. -/
def Second : Duration := 1000 * Millisecond

/-- Go `time.Hour`, in nanoseconds. -/
def Hour : Duration := 3600 * Second

/-- Go `d1 * d2` on `time.Duration`: 64-bit multiplication, wrapping on overflow. -/
def Duration.mul (a b : Duration) : Duration := wrap64 (a * b)

/-- The time by which `time.Sleep(d)` advances the wall clock (nanoseconds): a
negative or zero duration returns immediately. -/
def sleepTime (d : Duration) : Nat := d.toNat

end time

namespace context

/-- The two errors a Go context can report. -/
inductive Error where
  | Canceled
  | DeadlineExceeded
  deriving DecidableEq, Repr

/-- Go `err.Error()` of the two context errors. -/
def Error.text : Error → String
  | Error.Canceled => "context canceled"
  | Error.DeadlineExceeded => "context deadline exceeded"

/-- A Go `context.Context`, reduced to what the repository observes of it: the
moment (wall clock, nanoseconds) at which it becomes done, together with the
error it reports from then on.  `none` is a context that is never done. -/
structure Context where
  doneAt : Option (Nat × Error)
  deriving DecidableEq, Repr

/-- Go `context.Background()`: never cancelled, no deadline. -/
def Background : Context := ⟨none⟩

/-- Go `ctx.Err()` read at wall-clock time `now`. -/
def Context.Err (ctx : Context) (now : Nat) : Option Error :=
  match ctx.doneAt with
  | none => none
  | some (t, e) => if t ≤ now then some e else none

/-- Go `context.WithTimeout(parent, d)` evaluated at time `now`: the child is
done when the parent is, or at `now + d` with `DeadlineExceeded`, whichever
comes first (a non-positive `d` is a deadline that has already passed).  The
cancel function the Go call also returns is only ever run by a `defer` in this
repository, after the last use of the child, so it is not modelled. -/
def WithTimeout (parent : Context) (now : Nat) (d : time.Duration) : Context :=
  match parent.doneAt with
  | none => ⟨some (now + d.toNat, Error.DeadlineExceeded)⟩
  | some (t, e) =>
    if t ≤ now + d.toNat then ⟨some (t, e)⟩ else ⟨some (now + d.toNat, Error.DeadlineExceeded)⟩

end context

namespace driver

open context

/-- Go `driver.CollectionType`. -/
inductive CollectionType where
  | CollectionTypeDocument
  | CollectionTypeEdge
  deriving DecidableEq, Repr

/-- Go `driver.CreateDatabaseUserOptions`, the fields the repository sets. -/
structure CreateDatabaseUserOptions where
  UserName : String
  Password : String
  deriving DecidableEq, Repr

/-- Go `driver.CreateDatabaseOptions`, the field the repository sets. -/
structure CreateDatabaseOptions where
  Users : List CreateDatabaseUserOptions
  deriving DecidableEq, Repr

/-- The answer of a collaborator to one call: its new state, the time the call
took (nanoseconds), the Go result value and the Go error. -/
structure Reply (σ : Type) (α : Type) where
  st : σ
  elapsed : Nat
  val : α
  err : Option String

/-- Go interface `driver.Database`, the two methods the repository calls.  The
collection / cursor they return is discarded by every caller, so the result
value is `Unit`.  Arguments: server state, current time, context, then the Go
arguments. -/
structure Database (σ : Type) where
  CreateCollection : σ → Nat → Context → String → CollectionType → Reply σ Unit
  Query : σ → Nat → Context → String → List (String × String) → Reply σ Unit

/-- Go interface `driver.Client`, the four methods the repository calls.  A
returned `driver.Database` may be the nil interface (`none`). -/
structure Client (σ : Type) where
  DatabaseExists : σ → Nat → Context → String → Reply σ Bool
  CreateDatabase : σ → Nat → Context → String → CreateDatabaseOptions → Reply σ (Option (Database σ))
  Database : σ → Nat → Context → String → Reply σ (Option (Database σ))
  Databases : σ → Nat → Context → Reply σ Unit

end driver

open context driver

/-- One observable effect of the repository code on a collaborator, with the
arguments passed and the error the collaborator answered. -/
inductive Event where
  | createCollection (ctx : Context) (name : String) (kind : CollectionType) (err : Option String)
  | removeCollection (ctx : Context) (name : String) (err : Option String)
  | query (ctx : Context) (script : String) (bindVars : List (String × String)) (err : Option String)
  | databaseExists (ctx : Context) (name : String) (exist : Bool) (err : Option String)
  | createDatabase (ctx : Context) (name : String) (options : CreateDatabaseOptions) (err : Option String)
  | database (ctx : Context) (name : String) (err : Option String)
  | databases (ctx : Context) (err : Option String)
  | sleep (d : time.Duration)
  | stopContainer (id : String)
  | dumpContainerLogs (id : String)
  | testLog (msg : String)
  | logSync
  | writerFlush
  | stdout (text : String)
  deriving DecidableEq, Repr

/-- The collection request an event carries, when it is a `CreateCollection` call. -/
def Event.created : Event → Option (String × CollectionType)
  | Event.createCollection _ name kind _ => some (name, kind)
  | _ => none

/-- The error the collaborator answered to the call an event records (`none`
for a call that succeeded and for effects that cannot fail). -/
def Event.err : Event → Option String
  | Event.createCollection _ _ _ err => err
  | Event.removeCollection _ _ err => err
  | Event.query _ _ _ err => err
  | Event.databaseExists _ _ _ err => err
  | Event.createDatabase _ _ _ err => err
  | Event.database _ _ err => err
  | Event.databases _ err => err
  | _ => none

/-- The outcome of running a function of the repository: collaborator state and
clock afterwards, the effects issued (oldest first) and the Go results. -/
structure Run (σ : Type) (α : Type) where
  st : σ
  now : Nat
  trace : List Event
  val : α

namespace dbschema

/-- First loop of `Migrate` (dbschema.go lines 15-22): one `CreateCollection`
call of kind document per name, each under a fresh one-second context derived
from `context.Background()`; returns at the first error. -/
def Migrate.documents {σ : Type} (db : Database σ) : List String → σ → Nat → Run σ (Option String)
  | [], s, now => ⟨s, now, [], none⟩
  | c :: cs, s, now =>
    let ctx := WithTimeout Background now (time.Millisecond * 1000)
    let r := db.CreateCollection s now ctx c CollectionType.CollectionTypeDocument
    match r.err with
    | some err =>
      ⟨r.st, now + r.elapsed, [Event.createCollection ctx c CollectionType.CollectionTypeDocument r.err],
        some ("error creating " ++ c ++ " document collection: " ++ err)⟩
    | none =>
      let rest := Migrate.documents db cs r.st (now + r.elapsed)
      ⟨rest.st, rest.now,
        Event.createCollection ctx c CollectionType.CollectionTypeDocument r.err :: rest.trace, rest.val⟩

/-- Second loop of `Migrate` (dbschema.go lines 24-31): the same for the edge
collections. -/
def Migrate.edges {σ : Type} (db : Database σ) : List String → σ → Nat → Run σ (Option String)
  | [], s, now => ⟨s, now, [], none⟩
  | c :: cs, s, now =>
    let ctx := WithTimeout Background now (time.Millisecond * 1000)
    let r := db.CreateCollection s now ctx c CollectionType.CollectionTypeEdge
    match r.err with
    | some err =>
      ⟨r.st, now + r.elapsed, [Event.createCollection ctx c CollectionType.CollectionTypeEdge r.err],
        some ("error creating " ++ c ++ " edge collection: " ++ err)⟩
    | none =>
      let rest := Migrate.edges db cs r.st (now + r.elapsed)
      ⟨rest.st, rest.now,
        Event.createCollection ctx c CollectionType.CollectionTypeEdge r.err :: rest.trace, rest.val⟩

/-- Go `dbschema.Migrate(ctx, db, collections, edges)`.  The parameter `ctx` is
shadowed inside both loops by a context built from `context.Background()` and
is never read. -/
def Migrate {σ : Type} (ctx : Context) (db : Database σ) (collections : List String)
    (edges : List String) (s : σ) (now : Nat) : Run σ (Option String) :=
  let _ := ctx
  let d := Migrate.documents db collections s now
  match d.val with
  | some err => ⟨d.st, d.now, d.trace, some err⟩
  | none =>
    let e := Migrate.edges db edges d.st d.now
    ⟨e.st, e.now, d.trace ++ e.trace, e.val⟩

/-- Go `dbschema.Seed(ctx, db, seedAql)`.  The parameter `ctx` is shadowed on
the first line by a five-second context built from `context.Background()`. -/
def Seed {σ : Type} (ctx : Context) (db : Database σ) (seedAql : String) (s : σ) (now : Nat) :
    Run σ (Option String) :=
  let _ := ctx
  let ctx := WithTimeout Background now (time.Millisecond * 5000)
  let r := db.Query s now ctx seedAql []
  match r.err with
  | some err =>
    ⟨r.st, now + r.elapsed, [Event.query ctx seedAql [] r.err],
      some ("error running query: \n" ++ seedAql ++ "\n" ++ err ++ "\n")⟩
  | none => ⟨r.st, now + r.elapsed, [Event.query ctx seedAql [] r.err], none⟩

end dbschema

namespace database

/-- Go `database.Config`. -/
structure Config where
  User : String
  Password : String
  Host : String
  Name : String
  MaxIdleConns : Int
  MaxOpenConns : Int
  DisableTLS : Bool
  deriving DecidableEq, Repr

/-- The two constructors of the driver that `Open` calls: `http.NewConnection`
(given the endpoint list) and `driver.NewClient` (given the connection and the
user and password of the basic authentication).  Both are pure set-up, they do
no network call.  `κ` is the connection type, `γ` the client type; either
result may be nil (`none`). -/
structure Constructors (κ γ : Type) where
  NewConnection : List String → Option κ × Option String
  NewClient : Option κ → String → String → Option γ × Option String

/-- Go `database.Open(cfg)`.  The error of `driver.NewClient` is assigned to
`err` and never read: line 36 returns `c, nil`. -/
def Open {κ γ : Type} (drv : Constructors κ γ) (cfg : Config) : Option γ × Option String :=
  let (conn, err) := drv.NewConnection [cfg.Host]
  match err with
  | some err =>
    (none, some ("error opening arangodb for unit tests:  http.NewConnection: " ++ err))
  | none =>
    let (c, _err) := drv.NewClient conn cfg.User cfg.Password
    (c, none)

/-- Go `database.CreateDatabase(ctx, c, cfg)`.  The error of `DatabaseExists`
is assigned to `err` and overwritten by the next call without being read; only
the boolean steers the branch.  Both branches shadow `ctx` by a 100 ms context
built from `context.Background()`. -/
def CreateDatabase {σ : Type} (ctx : Context) (c : Client σ) (cfg : Config) (s : σ) (now : Nat) :
    Run σ (Option (Database σ) × Option String) :=
  let e := c.DatabaseExists s now ctx cfg.Name
  let exist := e.val
  let ev := Event.databaseExists ctx cfg.Name e.val e.err
  let options : CreateDatabaseOptions := ⟨[⟨cfg.User, cfg.Password⟩]⟩
  let now := now + e.elapsed
  if !exist then
    let ctx := WithTimeout Background now (100 * time.Millisecond)
    let r := c.CreateDatabase e.st now ctx cfg.Name options
    match r.err with
    | some err =>
      ⟨r.st, now + r.elapsed, [ev, Event.createDatabase ctx cfg.Name options r.err],
        (none, some ("error creating arangodb database for unit tests:  c.CreateDatabase: " ++ err))⟩
    | none =>
      ⟨r.st, now + r.elapsed, [ev, Event.createDatabase ctx cfg.Name options r.err], (r.val, none)⟩
  else
    let ctx := WithTimeout Background now (100 * time.Millisecond)
    let r := c.Database e.st now ctx cfg.Name
    match r.err with
    | some _ =>
      ⟨r.st, now + r.elapsed, [ev, Event.database ctx cfg.Name r.err],
        (none, some "error fetching arangodb database for unit tests:  c.CreateDatabase")⟩
    | none =>
      ⟨r.st, now + r.elapsed, [ev, Event.database ctx cfg.Name r.err], (r.val, none)⟩

/-- The argument of `time.Sleep` in `StatusCheck`, the Go expression
`time.Duration(attempts) * 100 * time.Millisecond`: two 64-bit multiplications,
each wrapping on overflow. -/
def StatusCheck.backoff (attempts : Int) : time.Duration :=
  time.Duration.mul (time.Duration.mul attempts 100) time.Millisecond

/-- The `for attempts := 1; ; attempts++` loop of `StatusCheck` (database.go
lines 80-90), started at the given value of `attempts`.  The Go loop has no
bound, so the model takes `fuel`, the number of iterations it may run, and
answers `none` when the fuel is used up.  The value of the run is `some e`
when the loop left through `return ctx.Err()` and `none` when it left through
`break`. -/
def StatusCheck.loop {σ : Type} (ctx : Context) (client : Client σ) :
    Nat → Int → σ → Nat → Option (Run σ (Option context.Error))
  | 0, _, _, _ => none
  | fuel + 1, attempts, s, now =>
    let r := client.Databases s now ctx
    let probe := Event.databases ctx r.err
    match r.err with
    | none => some ⟨r.st, now + r.elapsed, [probe], none⟩
    | some _ =>
      let d := StatusCheck.backoff attempts
      let now := now + r.elapsed + time.sleepTime d
      match ctx.Err now with
      | some e => some ⟨r.st, now, [probe, Event.sleep d], some e⟩
      | none =>
        match StatusCheck.loop ctx client fuel (time.wrap64 (attempts + 1)) r.st now with
        | none => none
        | some rest => some ⟨rest.st, rest.now, probe :: Event.sleep d :: rest.trace, rest.val⟩

/-- Go `database.StatusCheck(ctx, client)`: the loop, then the final
`if ctx.Err() != nil { return ctx.Err() }; return nil`. -/
def StatusCheck {σ : Type} (fuel : Nat) (ctx : Context) (client : Client σ) (s : σ) (now : Nat) :
    Option (Run σ (Option context.Error)) :=
  match StatusCheck.loop ctx client fuel 1 s now with
  | none => none
  | some r =>
    match r.val with
    | some e => some ⟨r.st, r.now, r.trace, some e⟩
    | none => some ⟨r.st, r.now, r.trace, ctx.Err r.now⟩

end database

namespace docker

/-- Go `docker.Container`, the two fields the harness reads. -/
structure Container where
  ID : String
  Host : String
  deriving DecidableEq, Repr

end docker

namespace auth

/-- A private signing key, identified symbolically: two keys are the same key
exactly when their identifiers are equal. -/
abbrev PrivateKey := Nat

/-- Go `auth.Claims`: the registered claims the harness sets, and the roles.
Times are wall-clock nanoseconds. -/
structure Claims where
  Subject : String
  Issuer : String
  ExpiresAt : Nat
  IssuedAt : Nat
  Roles : List String
  deriving DecidableEq, Repr

/-- A signed token, symbolically: the key identifier in its header, its claims
and the private key whose signature it carries. -/
structure Token where
  kid : String
  claims : Claims
  signedBy : PrivateKey
  deriving DecidableEq, Repr

/-- Go `auth.Auth` of the token library: the active key identifier and the key
lookup (`keystore`) it was built with. -/
structure Auth where
  activeKID : String
  keyLookup : String → Option PrivateKey

/-- Go `keystore.NewMap(store)`: a lookup over a fixed map. -/
def NewMap (store : List (String × PrivateKey)) : String → Option PrivateKey :=
  fun kid => store.lookup kid

/-- Go `auth.New(activeKID, keyLookup)`: fails when the active key is not in
the lookup. -/
def New (activeKID : String) (keyLookup : String → Option PrivateKey) : Except String Auth :=
  match keyLookup activeKID with
  | none => Except.error "active KID does not exist in store"
  | some _ => Except.ok ⟨activeKID, keyLookup⟩

/-- Go `(*Auth).GenerateToken(claims)`: signs the claims with the private key
the lookup holds for the active key identifier. -/
def Auth.GenerateToken (a : Auth) (claims : Claims) : Except String Token :=
  match a.keyLookup a.activeKID with
  | none => Except.error "kid lookup failed"
  | some key => Except.ok ⟨a.activeKID, claims, key⟩

/-- Go `(*Auth).ValidateToken(token)` at time `now`: the key registered under
the token's key identifier must be the key that signed it, and the token must
not have expired. -/
def Auth.ValidateToken (a : Auth) (tok : Token) (now : Nat) : Except String Claims :=
  match a.keyLookup tok.kid with
  | none => Except.error "failed to fetch public key"
  | some key =>
    if key ≠ tok.signedBy then Except.error "signature is invalid"
    else if tok.claims.ExpiresAt < now then Except.error "token is expired"
    else Except.ok tok.claims

end auth

namespace testing

/-- How a call made on behalf of a Go test ends: it returns, it is cut short by
`t.Fatal` / `t.Fatalf` with the message logged, or it panics on a method call
through a nil interface value. -/
inductive Outcome (α : Type) where
  | returned (val : α)
  | fatal (msg : String)
  | nilPanic

end testing

namespace dbtest

open testing

/-- Go `dbtest.Data`. -/
structure Data where
  CollectionData : List String
  EdgeData : List String
  SeedAql : String
  deriving DecidableEq, Repr

/-- Go `dbtest.StopDB(c)`: one `docker.StopContainer(c.ID)`. -/
def StopDB (c : docker.Container) : List Event :=
  [Event.stopContainer c.ID]

/-- The logger state `NewUnit` sets up and its teardown closure captures: the
bytes still held by the `bufio.Writer` the logger writes to, and the
`bytes.Buffer` behind it. -/
structure Logs where
  pending : String
  buf : String
  deriving DecidableEq, Repr

/-- The closure `teardown` built by `NewUnit` (dbtest.go lines 114-121):
`log.Sync()`, `writer.Flush()`, then the three prints.  Returns the log state
afterwards and the effects issued. -/
def teardown (l : Logs) : Logs × List Event :=
  let flushed : Logs := ⟨"", l.buf ++ l.pending⟩
  (flushed,
    [Event.logSync, Event.writerFlush,
     Event.stdout "******************** LOGS ********************\n",
     Event.stdout flushed.buf,
     Event.stdout "******************** LOGS ********************\n"])

/-- Go `dbtest.NewUnit(t, c, dbName, data)` run at time `now` against the
driver constructors `drv` and the server state `s`; `fuel` bounds the
iterations of `StatusCheck`.  It returns the logger, the database handle and
the teardown closure.  A nil client or a nil database handle that came with a
nil error makes the first method call through it panic; for the handle that
is the first call of `Migrate`, or of `Seed` when both lists are empty, so no
effect precedes the panic in either case. -/
def NewUnit {κ σ : Type} (fuel : Nat) (drv : database.Constructors κ (Client σ))
    (c : docker.Container) (dbName : String) (data : Data) (s : σ) (now : Nat) :
    Option (Run σ (Outcome (Logs × Database σ × (Logs → Logs × List Event)))) :=
  let ctx := WithTimeout Background now (10 * time.Second)
  match database.Open drv ⟨"root", "arangodb", "http://" ++ c.Host, "arangodb", 0, 0, true⟩ with
  | (_, some err) => some ⟨s, now, [], Outcome.fatal ("Opening database connection: " ++ err)⟩
  | (none, none) =>
    some ⟨s, now, [Event.testLog "Waiting for database to be ready ..."], Outcome.nilPanic⟩
  | (some dbClient, none) =>
    match database.StatusCheck fuel ctx dbClient s now with
    | none => none
    | some sc =>
      let t1 := Event.testLog "Waiting for database to be ready ..." :: sc.trace
      match sc.val with
      | some err => some ⟨sc.st, sc.now, t1, Outcome.fatal ("status check database: " ++ err.text)⟩
      | none =>
        let cd := database.CreateDatabase ctx dbClient
          ⟨"arangodb", "arangodb", "http://" ++ c.Host, dbName, 0, 0, true⟩ sc.st sc.now
        let t2 := t1 ++ Event.testLog "Database ready" :: cd.trace
        match cd.val with
        | (_, some err) =>
          some ⟨cd.st, cd.now, t2, Outcome.fatal ("Opening database connection: " ++ err)⟩
        | (none, none) =>
          some ⟨cd.st, cd.now, t2 ++ [Event.testLog "Migrate and seed database ..."],
            Outcome.nilPanic⟩
        | (some db, none) =>
          let m := dbschema.Migrate ctx db data.CollectionData data.EdgeData cd.st cd.now
          let t3 := t2 ++ Event.testLog "Migrate and seed database ..." :: m.trace
          match m.val with
          | some err =>
            some ⟨m.st, m.now, t3 ++ [Event.dumpContainerLogs c.ID],
              Outcome.fatal ("Migrating error: " ++ err)⟩
          | none =>
            let sd := dbschema.Seed ctx db data.SeedAql m.st m.now
            match sd.val with
            | some err =>
              some ⟨sd.st, sd.now, t3 ++ sd.trace ++ [Event.dumpContainerLogs c.ID],
                Outcome.fatal ("Seeding error: " ++ err)⟩
            | none =>
              some ⟨sd.st, sd.now, t3 ++ sd.trace ++ [Event.testLog "Ready for testing ..."],
                Outcome.returned (⟨"", ""⟩, db, teardown)⟩

/-- Go `dbtest.NewAuth(t)`; `keygen` is the result of `rsa.GenerateKey`.
Either error is fatal for the test. -/
def NewAuth (keygen : Except String auth.PrivateKey) : Outcome auth.Auth :=
  let keyID := "4754d86b-7a6d-4df5-9c65-224741361492"
  match keygen with
  | Except.error err => Outcome.fatal err
  | Except.ok privateKey =>
    match auth.New keyID (auth.NewMap [(keyID, privateKey)]) with
    | Except.error err => Outcome.fatal err
    | Except.ok a => Outcome.returned a

/-- Go `dbtest.Test`, without the `*testing.T` it carries. -/
structure Test (σ : Type) where
  DB : Database σ
  Log : Logs
  Auth : auth.Auth
  Teardown : Logs → Logs × List Event

/-- Go `dbtest.NewIntegration(t, c, dbName, data)`: `NewUnit`, then `NewAuth`,
then the `Test` value holding what they returned. -/
def NewIntegration {κ σ : Type} (fuel : Nat) (drv : database.Constructors κ (Client σ))
    (keygen : Except String auth.PrivateKey) (c : docker.Container) (dbName : String)
    (data : Data) (s : σ) (now : Nat) : Option (Run σ (Outcome (Test σ))) :=
  match NewUnit fuel drv c dbName data s now with
  | none => none
  | some u =>
    match u.val with
    | Outcome.fatal msg => some ⟨u.st, u.now, u.trace, Outcome.fatal msg⟩
    | Outcome.nilPanic => some ⟨u.st, u.now, u.trace, Outcome.nilPanic⟩
    | Outcome.returned (log, db, teardown) =>
      match NewAuth keygen with
      | Outcome.fatal msg => some ⟨u.st, u.now, u.trace, Outcome.fatal msg⟩
      | Outcome.nilPanic => some ⟨u.st, u.now, u.trace, Outcome.nilPanic⟩
      | Outcome.returned a => some ⟨u.st, u.now, u.trace, Outcome.returned ⟨db, log, a, teardown⟩⟩

/-- Go `(*Test).Token(id, roles)` on a test whose `Auth` field is `a`, called
at time `now`: the effects issued and the token returned. -/
def Token (a : auth.Auth) (id : String) (roles : List String) (now : Nat) :
    List Event × Outcome auth.Token :=
  let claims : auth.Claims := ⟨id, "service project", now + time.Hour.toNat, now, roles⟩
  match a.GenerateToken claims with
  | Except.error err => ([Event.testLog "Generating token for test ..."], Outcome.fatal err)
  | Except.ok token => ([Event.testLog "Generating token for test ..."], Outcome.returned token)

/-- Go `dbtest.InvalidToken(t, a)` called at time `now`: the effects issued
and the token returned. -/
def InvalidToken (a : auth.Auth) (now : Nat) : List Event × Outcome auth.Token :=
  let claims : auth.Claims :=
    ⟨"11", "service project", now + time.Hour.toNat, now, ["ADMIN", "USER"]⟩
  match a.GenerateToken claims with
  | Except.error err => ([Event.testLog "Generating token for test ..."], Outcome.fatal err)
  | Except.ok token => ([Event.testLog "Generating token for test ..."], Outcome.returned token)

end dbtest

/-! ## Vocabulary of the statements -/

/-- What a run of one loop of `Migrate` over `names` looks like: either every
call was issued and succeeded, or the calls stop at the first failing one and
the error names it. -/
def LoopShape (kind : CollectionType) (word : String) (names : List String)
    (trace : List Event) (val : Option String) : Prop :=
  (val = none ∧ trace.filterMap Event.created = names.map (fun c => (c, kind)) ∧
      (∀ e ∈ trace, e.err = none) ∧ (∀ e ∈ trace, e.created ≠ none))
  ∨ ∃ pre ctx name cause done rest,
      names = done ++ name :: rest ∧
      trace = pre ++ [Event.createCollection ctx name kind (some cause)] ∧
      pre.filterMap Event.created = done.map (fun c => (c, kind)) ∧
      (∀ e ∈ pre, e.err = none) ∧ (∀ e ∈ pre, e.created ≠ none) ∧
      val = some ("error creating " ++ name ++ word ++ cause)

/-- The two possible outcomes of `Migrate`: all planned calls issued and
answered without error, or a run cut short by its last, failing call. -/
def MigrateShape (planned : List (String × CollectionType)) (trace : List Event)
    (val : Option String) : Prop :=
  (val = none ∧ trace.filterMap Event.created = planned ∧
      (∀ e ∈ trace, e.err = none) ∧ (∀ e ∈ trace, e.created ≠ none))
  ∨ ∃ pre ctx name kind cause,
      trace = pre ++ [Event.createCollection ctx name kind (some cause)] ∧
      (pre.filterMap Event.created ++ [(name, kind)]) <+: planned ∧
      (∀ e ∈ pre, e.err = none) ∧ (∀ e ∈ pre, e.created ≠ none) ∧
      ((kind = CollectionType.CollectionTypeDocument ∧
          val = some ("error creating " ++ name ++ " document collection: " ++ cause)) ∨
       (kind = CollectionType.CollectionTypeEdge ∧
          val = some ("error creating " ++ name ++ " edge collection: " ++ cause)))

/-- State of the server and wall-clock time at which `StatusCheck` issues its
next probe once `k` probes in a row have failed with the context still live,
starting in state `s` at time `now` with the loop counter at `attempts`: each
failed probe takes its time and is followed by the back-off sleep of the
current attempt number. -/
def probePoint {σ : Type} (ctx : Context) (client : Client σ) : Nat → σ → Nat → Nat → σ × Nat
  | _, s, now, 0 => (s, now)
  | attempts, s, now, k + 1 =>
    probePoint ctx client (attempts + 1) (client.Databases s now ctx).st
      (now + (client.Databases s now ctx).elapsed +
        time.sleepTime (database.StatusCheck.backoff attempts)) k

/-- The answer of the client to the probe issued after `k` failed probes of a
`StatusCheck` started in state `s` at time `now`. -/
def probeReply {σ : Type} (ctx : Context) (client : Client σ) (s : σ) (now : Nat) (k : Nat) :
    Reply σ Unit :=
  client.Databases (probePoint ctx client 1 s now k).1 (probePoint ctx client 1 s now k).2 ctx

/-- The largest attempt number whose back-off `attempts * 100 * time.Millisecond`
still fits a signed 64-bit `time.Duration`. -/
def maxBackoffAttempt : Nat := 92233720368

/-- The data model of collections of the specification, as a property of an
arbitrary database: `colls s` reads off a server state the collections that
exist, name to kind.  Creating a collection that exists with the same kind is
a success that changes nothing, creating one that exists with another kind is
an error, and a creation that succeeds leaves exactly the collections there
were plus the one asked for. -/
structure FollowsDataModel {σ : Type} (db : Database σ)
    (colls : σ → String → Option CollectionType) : Prop where
  same_kind : ∀ s now ctx name kind, ctx.Err now = none → colls s name = some kind →
    (db.CreateCollection s now ctx name kind).err = none ∧
      colls (db.CreateCollection s now ctx name kind).st = colls s
  other_kind : ∀ s now ctx name kind k, colls s name = some k → k ≠ kind →
    (db.CreateCollection s now ctx name kind).err ≠ none
  created : ∀ s now ctx name kind, (db.CreateCollection s now ctx name kind).err = none →
    colls (db.CreateCollection s now ctx name kind).st = Function.update (colls s) name (some kind)

/-! ## Concrete collaborators used to evaluate the code -/

namespace fixtures

/-- A database that honours the context it is given: every call fails with the
context's error when that context is already done at the time of the call and
succeeds otherwise.  It keeps no state. -/
def honouringDB : Database Unit :=
  ⟨fun s now ctx _ _ =>
      match ctx.Err now with
      | some e => ⟨s, 0, (), some e.text⟩
      | none => ⟨s, 0, (), none⟩,
   fun s now ctx _ _ =>
      match ctx.Err now with
      | some e => ⟨s, 0, (), some e.text⟩
      | none => ⟨s, 0, (), none⟩⟩

/-- A client of a server without databases that honours the context it is
given in the same way; a database it creates or opens is `honouringDB`. -/
def honouringClient : Client Unit :=
  ⟨fun s now ctx _ =>
      match ctx.Err now with
      | some e => ⟨s, 0, false, some e.text⟩
      | none => ⟨s, 0, false, none⟩,
   fun s now ctx _ _ =>
      match ctx.Err now with
      | some e => ⟨s, 0, none, some e.text⟩
      | none => ⟨s, 0, some honouringDB, none⟩,
   fun s now ctx _ =>
      match ctx.Err now with
      | some e => ⟨s, 0, none, some e.text⟩
      | none => ⟨s, 0, some honouringDB, none⟩,
   fun s now ctx =>
      match ctx.Err now with
      | some e => ⟨s, 0, (), some e.text⟩
      | none => ⟨s, 0, (), none⟩⟩

/-- A context that was cancelled at time 0. -/
def cancelledCtx : Context := ⟨some (0, context.Error.Canceled)⟩

/-- A context whose deadline passed at time 0. -/
def expiredCtx : Context := ⟨some (0, context.Error.DeadlineExceeded)⟩

/-- Driver constructors of which the second one fails: the connection is
built, the client is refused. -/
def clientRefused : database.Constructors Unit (Client Unit) :=
  ⟨fun _ => (some (), none), fun _ _ _ => (none, some "invalid client configuration")⟩

/-- A database on a server whose state is a probe counter: every call
succeeds at once and leaves the counter alone. -/
def plainDB : Database Nat :=
  ⟨fun s _ _ _ _ => ⟨s, 0, (), none⟩, fun s _ _ _ _ => ⟨s, 0, (), none⟩⟩

/-- A client whose state counts the probes it has answered and whose first
`n` probes fail; every call returns at once.  The server has no database yet
and creates or opens `plainDB`. -/
def failsFirst (n : Nat) : Client Nat :=
  ⟨fun s _ _ _ => ⟨s, 0, false, none⟩,
   fun s _ _ _ _ => ⟨s, 0, some plainDB, none⟩,
   fun s _ _ _ => ⟨s, 0, some plainDB, none⟩,
   fun s _ _ => ⟨s + 1, 0, (), if s < n then some "unreachable" else none⟩⟩

/-- Driver constructors that always build the client `failsFirst n`. -/
def dialsFailsFirst (n : Nat) : database.Constructors Unit (Client Nat) :=
  ⟨fun _ => (some (), none), fun _ _ _ => (some (failsFirst n), none)⟩

/-- The reference database of the specification's data model: its state is
the list of collections created so far, newest first; creating a name that is
present with the same kind changes nothing, with another kind is a conflict. -/
def modelDB : Database (List (String × CollectionType)) :=
  ⟨fun s _ _ name kind =>
      match s.lookup name with
      | none => ⟨(name, kind) :: s, 0, (), none⟩
      | some k => if k = kind then ⟨s, 0, (), none⟩ else ⟨s, 0, (), some "duplicate name"⟩,
   fun s _ _ _ _ => ⟨s, 0, (), none⟩⟩

/-- A database whose query engine rejects every script. -/
def rejectingDB : Database Unit :=
  ⟨fun s _ _ _ _ => ⟨s, 0, (), none⟩, fun s _ _ _ _ => ⟨s, 0, (), some "syntax error"⟩⟩

/-- The collections of a state of `modelDB`. -/
def modelColls (s : List (String × CollectionType)) (name : String) : Option CollectionType :=
  s.lookup name

end fixtures

/-- The time an event kept the caller asleep: the advance of the clock for a
`time.Sleep`, nothing for any other effect. -/
def Event.slept : Event → Nat
  | Event.sleep d => time.sleepTime d
  | _ => 0

/-- Whether an event is a reachability probe (a `client.Databases` call). -/
def Event.isProbe : Event → Bool
  | Event.databases _ _ => true
  | _ => false

/-! ## Theorems -/

section MigrateLoops

open dbschema

theorem documents_shape {σ : Type} (db : Database σ) : ∀ (names : List String) (s : σ) (now : Nat),
    LoopShape CollectionType.CollectionTypeDocument " document collection: " names
      (Migrate.documents db names s now).trace (Migrate.documents db names s now).val
  | [], s, now => by
    left
    simp [Migrate.documents]
  | c :: cs, s, now => by
    have ih := documents_shape db cs
      (db.CreateCollection s now (WithTimeout Background now (time.Millisecond * 1000)) c
        CollectionType.CollectionTypeDocument).st
      (now + (db.CreateCollection s now (WithTimeout Background now (time.Millisecond * 1000)) c
        CollectionType.CollectionTypeDocument).elapsed)
    simp only [Migrate.documents]
    split
    · rename_i err herr
      right
      refine ⟨[], WithTimeout Background now (time.Millisecond * 1000), c, err, [], cs, rfl, ?_,
        rfl, by simp, by simp, rfl⟩
      simp [herr]
    · rename_i herr
      rcases ih with ⟨hv, ht, he, hc⟩ | ⟨pre, ctx, name, cause, done, rest, hn, ht, hp, he, hc, hv⟩
      · left
        refine ⟨hv, ?_, ?_, ?_⟩
        · simp [Event.created, ht]
        · intro e hmem
          rcases List.mem_cons.1 hmem with rfl | h
          · simpa [Event.err] using herr
          · exact he e h
        · intro e hmem
          rcases List.mem_cons.1 hmem with rfl | h
          · simp [Event.created]
          · exact hc e h
      · right
        refine ⟨Event.createCollection (WithTimeout Background now (time.Millisecond * 1000)) c
          CollectionType.CollectionTypeDocument none :: pre, ctx, name, cause, c :: done, rest,
          by simp [hn], by simp [ht, herr], ?_, ?_, ?_, hv⟩
        · simp [Event.created, hp]
        · intro e hmem
          rcases List.mem_cons.1 hmem with rfl | h
          · simp [Event.err]
          · exact he e h
        · intro e hmem
          rcases List.mem_cons.1 hmem with rfl | h
          · simp [Event.created]
          · exact hc e h

theorem edges_shape {σ : Type} (db : Database σ) : ∀ (names : List String) (s : σ) (now : Nat),
    LoopShape CollectionType.CollectionTypeEdge " edge collection: " names
      (Migrate.edges db names s now).trace (Migrate.edges db names s now).val
  | [], s, now => by
    left
    simp [Migrate.edges]
  | c :: cs, s, now => by
    have ih := edges_shape db cs
      (db.CreateCollection s now (WithTimeout Background now (time.Millisecond * 1000)) c
        CollectionType.CollectionTypeEdge).st
      (now + (db.CreateCollection s now (WithTimeout Background now (time.Millisecond * 1000)) c
        CollectionType.CollectionTypeEdge).elapsed)
    simp only [Migrate.edges]
    split
    · rename_i err herr
      right
      refine ⟨[], WithTimeout Background now (time.Millisecond * 1000), c, err, [], cs, rfl, ?_,
        rfl, by simp, by simp, rfl⟩
      simp [herr]
    · rename_i herr
      rcases ih with ⟨hv, ht, he, hc⟩ | ⟨pre, ctx, name, cause, done, rest, hn, ht, hp, he, hc, hv⟩
      · left
        refine ⟨hv, ?_, ?_, ?_⟩
        · simp [Event.created, ht]
        · intro e hmem
          rcases List.mem_cons.1 hmem with rfl | h
          · simpa [Event.err] using herr
          · exact he e h
        · intro e hmem
          rcases List.mem_cons.1 hmem with rfl | h
          · simp [Event.created]
          · exact hc e h
      · right
        refine ⟨Event.createCollection (WithTimeout Background now (time.Millisecond * 1000)) c
          CollectionType.CollectionTypeEdge none :: pre, ctx, name, cause, c :: done, rest,
          by simp [hn], by simp [ht, herr], ?_, ?_, ?_, hv⟩
        · simp [Event.created, hp]
        · intro e hmem
          rcases List.mem_cons.1 hmem with rfl | h
          · simp [Event.err]
          · exact he e h
        · intro e hmem
          rcases List.mem_cons.1 hmem with rfl | h
          · simp [Event.created]
          · exact hc e h

theorem Migrate_shape {σ : Type} (ctx : Context) (db : Database σ) (collections edges : List String)
    (s : σ) (now : Nat) :
    MigrateShape
      (collections.map (fun c => (c, CollectionType.CollectionTypeDocument)) ++
        edges.map (fun c => (c, CollectionType.CollectionTypeEdge)))
      (Migrate ctx db collections edges s now).trace (Migrate ctx db collections edges s now).val := by
  have hd := documents_shape db collections s now
  have he := edges_shape db edges (Migrate.documents db collections s now).st
    (Migrate.documents db collections s now).now
  simp only [Migrate]
  rcases hd with ⟨dv, dt, de, dc⟩ | ⟨pre, c, name, cause, done, rest, dn, dt, dp, de, dc, dv⟩
  · rw [dv]
    simp only
    rcases he with ⟨ev, et, ee, ec⟩ | ⟨pre, c, name, cause, done, rest, en, et, ep, ee, ec, ev⟩
    · left
      refine ⟨ev, by simp [List.filterMap_append, dt, et], ?_, ?_⟩
      · intro e hmem
        rcases List.mem_append.1 hmem with h | h
        · exact de e h
        · exact ee e h
      · intro e hmem
        rcases List.mem_append.1 hmem with h | h
        · exact dc e h
        · exact ec e h
    · right
      refine ⟨(Migrate.documents db collections s now).trace ++ pre, c, name,
        CollectionType.CollectionTypeEdge, cause, by simp [et], ?_, ?_, ?_, Or.inr ⟨rfl, ev⟩⟩
      · rw [List.filterMap_append, dt, ep, en, List.append_assoc]
        refine (List.prefix_append_right_inj _).2 ?_
        refine ⟨List.map (fun c => (c, CollectionType.CollectionTypeEdge)) rest, ?_⟩
        simp
      · intro e hmem
        rcases List.mem_append.1 hmem with h | h
        · exact de e h
        · exact ee e h
      · intro e hmem
        rcases List.mem_append.1 hmem with h | h
        · exact dc e h
        · exact ec e h
  · rw [dv]
    simp only
    right
    refine ⟨pre, c, name, CollectionType.CollectionTypeDocument, cause, dt, ?_, de, dc,
      Or.inl ⟨rfl, rfl⟩⟩
    rw [dp, dn]
    refine ⟨List.map (fun c => (c, CollectionType.CollectionTypeDocument)) rest ++
      List.map (fun c => (c, CollectionType.CollectionTypeEdge)) edges, ?_⟩
    simp

theorem append_singleton_split {α : Type} (pre pre2 post : List α) (x e : α)
    (h : pre ++ [x] = pre2 ++ e :: post) : post = [] ∨ e ∈ pre := by
  rcases List.eq_nil_or_concat post with hp | ⟨post2, y, hp⟩
  · exact Or.inl hp
  · right
    subst hp
    have h2 : pre ++ [x] = (pre2 ++ e :: post2) ++ [y] := by simpa using h
    have h3 := List.append_inj_left' h2 rfl
    rw [h3]
    simp

end MigrateLoops

/-- C1: `dbschema.Migrate` issues only `CreateCollection` calls (nothing undoes
a collection), in the order of `collections` with kind document followed by
`edges` with kind edge; no call follows a call that failed; it returns nil
exactly when every call it issued succeeded, and then it issued all of them;
otherwise its last call is the failing one and the returned message is
"error creating NAME document collection: CAUSE" or
"error creating NAME edge collection: CAUSE" for that call. -/
theorem Migrate_calls_in_order {σ : Type} (ctx : Context) (db : Database σ)
    (collections edges : List String) (s : σ) (now : Nat) :
    (∀ e ∈ (dbschema.Migrate ctx db collections edges s now).trace, e.created ≠ none) ∧
    ((dbschema.Migrate ctx db collections edges s now).trace.filterMap Event.created <+:
      collections.map (fun c => (c, CollectionType.CollectionTypeDocument)) ++
        edges.map (fun c => (c, CollectionType.CollectionTypeEdge))) ∧
    (∀ pre e post, (dbschema.Migrate ctx db collections edges s now).trace = pre ++ e :: post →
      e.err ≠ none → post = []) ∧
    ((dbschema.Migrate ctx db collections edges s now).val = none ↔
      ∀ e ∈ (dbschema.Migrate ctx db collections edges s now).trace, e.err = none) ∧
    ((dbschema.Migrate ctx db collections edges s now).val = none →
      (dbschema.Migrate ctx db collections edges s now).trace.filterMap Event.created =
        collections.map (fun c => (c, CollectionType.CollectionTypeDocument)) ++
          edges.map (fun c => (c, CollectionType.CollectionTypeEdge))) ∧
    (∀ msg, (dbschema.Migrate ctx db collections edges s now).val = some msg →
      ∃ pre c name kind cause,
        (dbschema.Migrate ctx db collections edges s now).trace =
          pre ++ [Event.createCollection c name kind (some cause)] ∧
        (∀ e ∈ pre, e.err = none) ∧
        ((kind = CollectionType.CollectionTypeDocument ∧
            msg = "error creating " ++ name ++ " document collection: " ++ cause) ∨
         (kind = CollectionType.CollectionTypeEdge ∧
            msg = "error creating " ++ name ++ " edge collection: " ++ cause))) := by
  have h := Migrate_shape ctx db collections edges s now
  generalize (dbschema.Migrate ctx db collections edges s now).trace = trace at h ⊢
  generalize (dbschema.Migrate ctx db collections edges s now).val = val at h ⊢
  rcases h with ⟨hv, ht, he, hc⟩ | ⟨pre, c, name, kind, cause, ht, hp, he, hc, hmsg⟩
  · refine ⟨hc, by rw [ht], ?_, ?_, fun _ => ht, ?_⟩
    · intro pre e post hsplit herr
      exact absurd (he e (by simp [hsplit])) herr
    · exact ⟨fun _ => he, fun _ => hv⟩
    · intro msg hmsg
      rw [hv] at hmsg
      exact absurd hmsg (by simp)
  · have hval : ∃ m, val = some m := by
      rcases hmsg with ⟨_, h⟩ | ⟨_, h⟩
      · exact ⟨_, h⟩
      · exact ⟨_, h⟩
    obtain ⟨m, hm⟩ := hval
    have hfail : (Event.createCollection c name kind (some cause)).err ≠ none := by
      simp [Event.err]
    refine ⟨?_, ?_, ?_, ?_, ?_, ?_⟩
    · intro e hmem
      rw [ht] at hmem
      rcases List.mem_append.1 hmem with h | h
      · exact hc e h
      · rw [List.mem_singleton.1 h]
        simp [Event.created]
    · rw [ht, List.filterMap_append]
      simpa [Event.created] using hp
    · intro pre2 e post hsplit herr
      rw [ht] at hsplit
      rcases append_singleton_split pre pre2 post _ e hsplit with h | h
      · exact h
      · exact absurd (he e h) herr
    · constructor
      · intro h
        rw [hm] at h
        exact absurd h (by simp)
      · intro hall
        exact absurd (hall _ (by rw [ht]; simp)) hfail
    · intro h
      rw [hm] at h
      exact absurd h (by simp)
    · intro msg hmsg2
      refine ⟨pre, c, name, kind, cause, ht, he, ?_⟩
      rcases hmsg with ⟨hk, h⟩ | ⟨hk, h⟩
      · left
        refine ⟨hk, ?_⟩
        rw [h] at hmsg2
        exact (Option.some.inj hmsg2).symm
      · right
        refine ⟨hk, ?_⟩
        rw [h] at hmsg2
        exact (Option.some.inj hmsg2).symm

/-- C2: `dbschema.Seed` issues exactly one call, a `Query` carrying the whole
script and an empty bind-variable map; it returns nil exactly when that call
succeeded, and when the call failed with text `cause` the message returned is
"error running query: \nSCRIPT\nCAUSE\n", which contains both the script and
the cause. -/
theorem Seed_single_query {σ : Type} (ctx : Context) (db : Database σ) (seedAql : String)
    (s : σ) (now : Nat) :
    (∃ c err, (dbschema.Seed ctx db seedAql s now).trace = [Event.query c seedAql [] err] ∧
      err = (db.Query s now c seedAql []).err ∧
      ((dbschema.Seed ctx db seedAql s now).val = none ↔ err = none) ∧
      (∀ cause, err = some cause →
        (dbschema.Seed ctx db seedAql s now).val =
          some ("error running query: \n" ++ seedAql ++ "\n" ++ cause ++ "\n"))) ∧
    (∀ cause msg, (db.Query s now (WithTimeout Background now (time.Millisecond * 5000))
          seedAql []).err = some cause →
      (dbschema.Seed ctx db seedAql s now).val = some msg →
      seedAql.data <:+: msg.data ∧ cause.data <:+: msg.data) := by
  constructor
  · refine ⟨WithTimeout Background now (time.Millisecond * 5000),
      (db.Query s now (WithTimeout Background now (time.Millisecond * 5000)) seedAql []).err, ?_, rfl,
      ?_, ?_⟩
    · simp only [dbschema.Seed]
      split <;> rfl
    · simp only [dbschema.Seed]
      split
      · rename_i err herr
        simp [herr]
      · rename_i herr
        simp [herr]
    · intro cause hc
      simp only [dbschema.Seed]
      split
      · rename_i err herr
        rw [hc] at herr
        cases herr
        rfl
      · rename_i herr
        rw [hc] at herr
        exact absurd herr (by simp)
  · intro cause msg hc hmsg
    simp only [dbschema.Seed, hc] at hmsg
    cases hmsg
    constructor
    · refine ⟨"error running query: \n".data, ("\n" ++ cause ++ "\n").data, ?_⟩
      simp [String.data_append, List.append_assoc]
    · refine ⟨("error running query: \n" ++ seedAql ++ "\n").data, "\n".data, ?_⟩
      simp [String.data_append, List.append_assoc]

/-- A run of `Migrate` that fails in its second phase: the name "user" is
asked for as a document collection and then as an edge collection. -/
theorem Migrate_conflict_example :
    (dbschema.Migrate Background fixtures.modelDB ["user"] ["user", "placed"] [] 0).val =
      some "error creating user edge collection: duplicate name" ∧
    (dbschema.Migrate Background fixtures.modelDB ["user"] ["user", "placed"] [] 0).trace =
      [Event.createCollection ⟨some (1000000000, context.Error.DeadlineExceeded)⟩ "user"
        CollectionType.CollectionTypeDocument none,
       Event.createCollection ⟨some (1000000000, context.Error.DeadlineExceeded)⟩ "user"
        CollectionType.CollectionTypeEdge (some "duplicate name")] := by
  constructor <;> decide

/-- A run of `Seed` whose script the engine rejects. -/
theorem Seed_failure_example :
    (dbschema.Seed Background fixtures.rejectingDB "RETURN" () 0).val =
      some "error running query: \nRETURN\nsyntax error\n" ∧
    (dbschema.Seed Background fixtures.rejectingDB "RETURN" () 0).trace =
      [Event.query ⟨some (5000000000, context.Error.DeadlineExceeded)⟩ "RETURN" []
        (some "syntax error")] := by
  constructor <;> decide

/-- C1, witness: on the run of `Migrate_conflict_example` the calls issued are
an initial segment of the planned ones, and the error names the failing
collection and its phase. -/
theorem Migrate_calls_in_order_witness :
    ((dbschema.Migrate Background fixtures.modelDB ["user"] ["user", "placed"] [] 0).trace.filterMap
        Event.created <+:
      [("user", CollectionType.CollectionTypeDocument)] ++
        [("user", CollectionType.CollectionTypeEdge), ("placed", CollectionType.CollectionTypeEdge)]) ∧
    (∃ pre c name kind cause,
      (dbschema.Migrate Background fixtures.modelDB ["user"] ["user", "placed"] [] 0).trace =
        pre ++ [Event.createCollection c name kind (some cause)] ∧
      (∀ e ∈ pre, e.err = none) ∧
      ((kind = CollectionType.CollectionTypeDocument ∧
          "error creating user edge collection: duplicate name" =
            "error creating " ++ name ++ " document collection: " ++ cause) ∨
       (kind = CollectionType.CollectionTypeEdge ∧
          "error creating user edge collection: duplicate name" =
            "error creating " ++ name ++ " edge collection: " ++ cause))) :=
  ⟨(Migrate_calls_in_order Background fixtures.modelDB ["user"] ["user", "placed"] [] 0).2.1,
   (Migrate_calls_in_order Background fixtures.modelDB ["user"] ["user", "placed"] [] 0).2.2.2.2.2
     "error creating user edge collection: duplicate name" (by decide)⟩

/-- C2, witness: on the run of `Seed_failure_example` the message contains the
script and the cause. -/
theorem Seed_single_query_witness :
    "RETURN".data <:+: "error running query: \nRETURN\nsyntax error\n".data ∧
    "syntax error".data <:+: "error running query: \nRETURN\nsyntax error\n".data :=
  (Seed_single_query Background fixtures.rejectingDB "RETURN" () 0).2 "syntax error"
    "error running query: \nRETURN\nsyntax error\n" (by decide) (by decide)

/-- C3: `database.CreateDatabase` first calls `DatabaseExists` with the
caller's context and `cfg.Name`.  When the check answers false its only other
call is the client's `CreateDatabase` with `cfg.Name` and the single user
(`cfg.User`, `cfg.Password`); when the check answers true its only other call
is the client's `Database` with `cfg.Name`.  In both cases it returns the
handle of that call with a nil error when the call succeeded, and a nil handle
with a non-nil error when it failed. -/
theorem CreateDatabase_checks_then_creates_or_opens {σ : Type} (ctx : Context) (c : Client σ)
    (cfg : database.Config) (s : σ) (now : Nat) :
    ((c.DatabaseExists s now ctx cfg.Name).val = false →
      ∃ c2 err val,
        (database.CreateDatabase ctx c cfg s now).trace =
          [Event.databaseExists ctx cfg.Name false (c.DatabaseExists s now ctx cfg.Name).err,
           Event.createDatabase c2 cfg.Name ⟨[⟨cfg.User, cfg.Password⟩]⟩ err] ∧
        err = (c.CreateDatabase (c.DatabaseExists s now ctx cfg.Name).st
          (now + (c.DatabaseExists s now ctx cfg.Name).elapsed) c2 cfg.Name
          ⟨[⟨cfg.User, cfg.Password⟩]⟩).err ∧
        val = (c.CreateDatabase (c.DatabaseExists s now ctx cfg.Name).st
          (now + (c.DatabaseExists s now ctx cfg.Name).elapsed) c2 cfg.Name
          ⟨[⟨cfg.User, cfg.Password⟩]⟩).val ∧
        (err = none → (database.CreateDatabase ctx c cfg s now).val = (val, none)) ∧
        (err ≠ none → (database.CreateDatabase ctx c cfg s now).val.1 = none ∧
          (database.CreateDatabase ctx c cfg s now).val.2 ≠ none)) ∧
    ((c.DatabaseExists s now ctx cfg.Name).val = true →
      ∃ c2 err val,
        (database.CreateDatabase ctx c cfg s now).trace =
          [Event.databaseExists ctx cfg.Name true (c.DatabaseExists s now ctx cfg.Name).err,
           Event.database c2 cfg.Name err] ∧
        err = (c.Database (c.DatabaseExists s now ctx cfg.Name).st
          (now + (c.DatabaseExists s now ctx cfg.Name).elapsed) c2 cfg.Name).err ∧
        val = (c.Database (c.DatabaseExists s now ctx cfg.Name).st
          (now + (c.DatabaseExists s now ctx cfg.Name).elapsed) c2 cfg.Name).val ∧
        (err = none → (database.CreateDatabase ctx c cfg s now).val = (val, none)) ∧
        (err ≠ none → (database.CreateDatabase ctx c cfg s now).val.1 = none ∧
          (database.CreateDatabase ctx c cfg s now).val.2 ≠ none)) := by
  constructor
  · intro hex
    refine ⟨WithTimeout Background (now + (c.DatabaseExists s now ctx cfg.Name).elapsed)
      (100 * time.Millisecond), _, _, ?_, rfl, rfl, ?_, ?_⟩
    · simp only [database.CreateDatabase, hex]
      simp only [Bool.not_false, if_true]
      split <;> rfl
    · intro herr
      simp only [database.CreateDatabase, hex]
      simp only [Bool.not_false, if_true, herr]
    · intro herr
      simp only [database.CreateDatabase, hex]
      simp only [Bool.not_false, if_true]
      split
      · simp
      · rename_i h
        exact absurd h herr
  · intro hex
    refine ⟨WithTimeout Background (now + (c.DatabaseExists s now ctx cfg.Name).elapsed)
      (100 * time.Millisecond), _, _, ?_, rfl, rfl, ?_, ?_⟩
    · simp only [database.CreateDatabase, hex]
      simp only [Bool.not_true, Bool.false_eq_true, if_false]
      split <;> rfl
    · intro herr
      simp only [database.CreateDatabase, hex]
      simp only [Bool.not_true, Bool.false_eq_true, if_false, herr]
    · intro herr
      simp only [database.CreateDatabase, hex]
      simp only [Bool.not_true, Bool.false_eq_true, if_false]
      split
      · simp
      · rename_i h
        exact absurd h herr

/-- C3, witness: a server without databases, asked at time 5 for the database
"stem": the check answers false, so the run is the check and one create. -/
theorem CreateDatabase_checks_then_creates_or_opens_witness :
    ∃ c2 err val,
      (database.CreateDatabase Background fixtures.honouringClient
        ⟨"arangodb", "arangodb", "http://localhost:8529", "stem", 0, 0, true⟩ () 5).trace =
        [Event.databaseExists Background "stem" false
          (fixtures.honouringClient.DatabaseExists () 5 Background "stem").err,
         Event.createDatabase c2 "stem" ⟨[⟨"arangodb", "arangodb"⟩]⟩ err] ∧
      err = (fixtures.honouringClient.CreateDatabase
        (fixtures.honouringClient.DatabaseExists () 5 Background "stem").st
        (5 + (fixtures.honouringClient.DatabaseExists () 5 Background "stem").elapsed) c2 "stem"
        ⟨[⟨"arangodb", "arangodb"⟩]⟩).err ∧
      val = (fixtures.honouringClient.CreateDatabase
        (fixtures.honouringClient.DatabaseExists () 5 Background "stem").st
        (5 + (fixtures.honouringClient.DatabaseExists () 5 Background "stem").elapsed) c2 "stem"
        ⟨[⟨"arangodb", "arangodb"⟩]⟩).val ∧
      (err = none → (database.CreateDatabase Background fixtures.honouringClient
        ⟨"arangodb", "arangodb", "http://localhost:8529", "stem", 0, 0, true⟩ () 5).val =
          (val, none)) ∧
      (err ≠ none → (database.CreateDatabase Background fixtures.honouringClient
        ⟨"arangodb", "arangodb", "http://localhost:8529", "stem", 0, 0, true⟩ () 5).val.1 = none ∧
        (database.CreateDatabase Background fixtures.honouringClient
        ⟨"arangodb", "arangodb", "http://localhost:8529", "stem", 0, 0, true⟩ () 5).val.2 ≠ none) :=
  (CreateDatabase_checks_then_creates_or_opens Background fixtures.honouringClient
    ⟨"arangodb", "arangodb", "http://localhost:8529", "stem", 0, 0, true⟩ () 5).1 rfl

/-- C7 (evaluation of the code where an error is swallowed): when
`driver.NewClient` fails, `database.Open` returns a nil client together with
a nil error; and when `DatabaseExists` fails (here because the caller's
context is cancelled), `database.CreateDatabase` goes on to create the
database and returns the handle with a nil error. -/
theorem errors_swallowed_by_Open_and_CreateDatabase :
    (fixtures.clientRefused.NewClient (some ()) "root" "arangodb").2
      = some "invalid client configuration" ∧
    database.Open fixtures.clientRefused
        ⟨"root", "arangodb", "http://localhost:8529", "arangodb", 0, 0, true⟩ = (none, none) ∧
    (fixtures.honouringClient.DatabaseExists () 5 fixtures.cancelledCtx "stem").err
      = some "context canceled" ∧
    (database.CreateDatabase fixtures.cancelledCtx fixtures.honouringClient
        ⟨"arangodb", "arangodb", "http://localhost:8529", "stem", 0, 0, true⟩ () 5).val
      = (some fixtures.honouringDB, none) ∧
    (database.CreateDatabase fixtures.cancelledCtx fixtures.honouringClient
        ⟨"arangodb", "arangodb", "http://localhost:8529", "stem", 0, 0, true⟩ () 5).trace
      = [Event.databaseExists fixtures.cancelledCtx "stem" false (some "context canceled"),
         Event.createDatabase ⟨some (100000005, context.Error.DeadlineExceeded)⟩ "stem"
           ⟨[⟨"arangodb", "arangodb"⟩]⟩ none] := by
  refine ⟨rfl, rfl, rfl, rfl, by decide⟩

theorem wrap64_of_range (x : Int) (h1 : -9223372036854775808 ≤ x) (h2 : x ≤ 9223372036854775807) :
    time.wrap64 x = x := by
  unfold time.wrap64
  norm_num
  omega

theorem backoff_of_le (a : Nat) (h : a ≤ maxBackoffAttempt) :
    database.StatusCheck.backoff a = (a : Int) * 100 * time.Millisecond := by
  unfold maxBackoffAttempt at h
  unfold database.StatusCheck.backoff time.Duration.mul time.Millisecond
  rw [wrap64_of_range ((a : Int) * 100) (by omega) (by omega)]
  rw [wrap64_of_range _ (by omega) (by omega)]

theorem Err_mono (ctx : Context) (t1 t2 : Nat) (e : context.Error) (h : ctx.Err t1 = some e)
    (h12 : t1 ≤ t2) : ctx.Err t2 = some e := by
  unfold Context.Err at h ⊢
  rcases hd : ctx.doneAt with _ | ⟨t, e2⟩
  · rw [hd] at h
    simp at h
  · rw [hd] at h
    simp only at h ⊢
    split at h
    · rename_i ht
      rw [if_pos (le_trans ht h12)]
      exact h
    · simp at h

theorem Err_live_before (ctx : Context) (t1 t2 : Nat) (h : ctx.Err t2 = none) (h12 : t1 ≤ t2) :
    ctx.Err t1 = none := by
  rcases h1 : ctx.Err t1 with _ | e
  · rfl
  · rw [Err_mono ctx t1 t2 e h1 h12] at h
    simp at h

/-- C5 (as the code behaves): called with a context that is already done,
`database.StatusCheck` still issues one probe, with that context.  When the
probe succeeds it sleeps not at all, when the probe fails it sleeps 100 ms;
in both cases it then returns the context's error and issues nothing else. -/
theorem StatusCheck_done_context_probes_once {σ : Type} (fuel : Nat) (ctx : Context)
    (client : Client σ) (s : σ) (now : Nat) (e : context.Error) (hdone : ctx.Err now = some e) :
    ∃ r, database.StatusCheck (fuel + 1) ctx client s now = some r ∧ r.val = some e ∧
      (((client.Databases s now ctx).err = none ∧ r.trace = [Event.databases ctx none]) ∨
       (∃ cause, (client.Databases s now ctx).err = some cause ∧
          r.trace = [Event.databases ctx (some cause), Event.sleep (100 * time.Millisecond)])) := by
  rcases hp : (client.Databases s now ctx).err with _ | cause
  · refine ⟨⟨(client.Databases s now ctx).st, now + (client.Databases s now ctx).elapsed,
      [Event.databases ctx none], some e⟩, ?_, rfl, Or.inl ⟨rfl, rfl⟩⟩
    simp only [database.StatusCheck, database.StatusCheck.loop, hp]
    rw [Err_mono ctx now _ e hdone (Nat.le_add_right _ _)]
  · have hb : database.StatusCheck.backoff 1 = 100 * time.Millisecond := by
      have := backoff_of_le 1 (by unfold maxBackoffAttempt; omega)
      simpa using this
    refine ⟨⟨(client.Databases s now ctx).st,
      now + (client.Databases s now ctx).elapsed + time.sleepTime (100 * time.Millisecond),
      [Event.databases ctx (some cause), Event.sleep (100 * time.Millisecond)], some e⟩, ?_, rfl,
      Or.inr ⟨cause, rfl, rfl⟩⟩
    simp only [database.StatusCheck, database.StatusCheck.loop, hp, hb]
    rw [Err_mono ctx now _ e hdone (by omega)]

/-- C5, witness: a deadline that passed at time 0, a client whose first probe
fails, the call made at time 5. -/
theorem StatusCheck_done_context_probes_once_witness :
    ∃ r, database.StatusCheck 1 fixtures.expiredCtx (fixtures.failsFirst 1) 0 5 = some r ∧
      r.val = some context.Error.DeadlineExceeded ∧
      ((((fixtures.failsFirst 1).Databases 0 5 fixtures.expiredCtx).err = none ∧
          r.trace = [Event.databases fixtures.expiredCtx none]) ∨
       (∃ cause, ((fixtures.failsFirst 1).Databases 0 5 fixtures.expiredCtx).err = some cause ∧
          r.trace = [Event.databases fixtures.expiredCtx (some cause),
            Event.sleep (100 * time.Millisecond)])) :=
  StatusCheck_done_context_probes_once 0 fixtures.expiredCtx (fixtures.failsFirst 1) 0 5
    context.Error.DeadlineExceeded (by decide)

/-- C5, counterexample: with a deadline that passed at time 0 and a database
that is not reachable, `StatusCheck` called at time 5 issues a probe and then
sleeps 100 ms before it returns the context's error. -/
theorem StatusCheck_done_context_still_probes :
    fixtures.expiredCtx.Err 5 = some context.Error.DeadlineExceeded ∧
    (database.StatusCheck 1 fixtures.expiredCtx (fixtures.failsFirst 1) 0 5).map (fun r => (r.trace, r.val))
      = some ([Event.databases fixtures.expiredCtx (some "unreachable"), Event.sleep 100000000],
          some context.Error.DeadlineExceeded) := by
  constructor
  · decide
  · rfl

theorem wrap64_succ (a : Nat) (h : a + 1 < 2 ^ 63) :
    time.wrap64 ((a : Int) + 1) = ((a + 1 : Nat) : Int) := by
  rw [wrap64_of_range _ (by omega) (by norm_num at h; omega)]
  push_cast
  rfl

theorem probePoint_time_le {σ : Type} (ctx : Context) (client : Client σ) :
    ∀ (k a : Nat) (s : σ) (now : Nat), now ≤ (probePoint ctx client a s now k).2
  | 0, _, _, _ => by simp [probePoint]
  | k + 1, a, s, now => by
    simp only [probePoint]
    exact le_trans (by omega) (probePoint_time_le ctx client k _ _ _)

/-- The run of the loop of `StatusCheck` over `n` failing probes followed by a
successful one, whatever the back-off durations come out as. -/
theorem loop_run {σ : Type} (ctx : Context) (client : Client σ) (extra : Nat) :
    ∀ (n a : Nat) (s : σ) (now : Nat), a + n < 2 ^ 63 →
    (∀ k < n, (client.Databases (probePoint ctx client a s now k).1
      (probePoint ctx client a s now k).2 ctx).err ≠ none) →
    (client.Databases (probePoint ctx client a s now n).1
      (probePoint ctx client a s now n).2 ctx).err = none →
    ctx.Err (probePoint ctx client a s now n).2 = none →
    database.StatusCheck.loop ctx client (n + 1 + extra) (a : Int) s now =
      some ⟨(client.Databases (probePoint ctx client a s now n).1
              (probePoint ctx client a s now n).2 ctx).st,
            (probePoint ctx client a s now n).2 +
              (client.Databases (probePoint ctx client a s now n).1
                (probePoint ctx client a s now n).2 ctx).elapsed,
            (List.range n).flatMap (fun k =>
              [Event.databases ctx (client.Databases (probePoint ctx client a s now k).1
                  (probePoint ctx client a s now k).2 ctx).err,
               Event.sleep (database.StatusCheck.backoff ((a + k : Nat) : Int))]) ++
              [Event.databases ctx none],
            none⟩
  | 0, a, s, now, _, _, hok, _ => by
    simp only [probePoint] at hok
    have hfuel : 0 + 1 + extra = extra + 1 := by omega
    rw [hfuel]
    simp [database.StatusCheck.loop, probePoint, hok]
  | n + 1, a, s, now, ha, hfail, hok, hlive => by
    have h0 := hfail 0 (Nat.succ_pos n)
    simp only [probePoint] at h0 hok hlive
    obtain ⟨cause, hc⟩ := Option.ne_none_iff_exists'.1 h0
    have hlive1 : ctx.Err (now + (client.Databases s now ctx).elapsed +
        time.sleepTime (database.StatusCheck.backoff a)) = none :=
      Err_live_before ctx _ _ hlive (probePoint_time_le ctx client n _ _ _)
    have ih := loop_run ctx client extra n (a + 1) (client.Databases s now ctx).st
      (now + (client.Databases s now ctx).elapsed +
        time.sleepTime (database.StatusCheck.backoff a)) (by omega)
      (fun k hk => by
        have := hfail (k + 1) (by omega)
        simpa only [probePoint] using this) hok hlive
    have hfuel : n + 1 + 1 + extra = (n + 1 + extra) + 1 := by omega
    rw [hfuel]
    simp only [database.StatusCheck.loop, hc, hlive1]
    rw [wrap64_succ a (by omega), ih]
    simp only [probePoint, List.range_succ_eq_map, List.flatMap_cons, List.flatMap_map, hc]
    simp [Nat.succ_eq_add_one, Nat.add_assoc, Nat.add_comm 1]

/-- The run of `StatusCheck` over `n` failing probes followed by a successful
one under a context that is live to the end. -/
theorem StatusCheck_run {σ : Type} (ctx : Context) (client : Client σ) (fuel n : Nat) (s : σ)
    (now : Nat) (hn : 1 + n < 2 ^ 63) (hfuel : n + 1 ≤ fuel)
    (hfail : ∀ k < n, (probeReply ctx client s now k).err ≠ none)
    (hok : (probeReply ctx client s now n).err = none)
    (hlive : ctx.Err ((probePoint ctx client 1 s now n).2 +
      (probeReply ctx client s now n).elapsed) = none) :
    database.StatusCheck fuel ctx client s now =
      some ⟨(probeReply ctx client s now n).st,
        (probePoint ctx client 1 s now n).2 + (probeReply ctx client s now n).elapsed,
        (List.range n).flatMap (fun k =>
          [Event.databases ctx (probeReply ctx client s now k).err,
           Event.sleep (database.StatusCheck.backoff ((1 + k : Nat) : Int))]) ++
          [Event.databases ctx none],
        none⟩ := by
  obtain ⟨extra, rfl⟩ : ∃ extra, fuel = n + 1 + extra := ⟨fuel - (n + 1), by omega⟩
  have hrun := loop_run ctx client extra n 1 s now hn hfail hok
    (Err_live_before ctx _ _ hlive (Nat.le_add_right _ _))
  have hc : ((1 : Nat) : Int) = 1 := rfl
  simp only [database.StatusCheck]
  rw [← hc, hrun]
  simp only
  unfold probeReply at hlive ⊢
  rw [hlive]

theorem flatMap_congr_mem {α β : Type} (l : List α) (f g : α → List β)
    (h : ∀ x ∈ l, f x = g x) : l.flatMap f = l.flatMap g := by
  induction l with
  | nil => rfl
  | cons x xs ih =>
    simp only [List.flatMap_cons]
    rw [h x (by simp), ih (fun y hy => h y (by simp [hy]))]

theorem backoff_probes_count (ctx : Context) (g : Nat → Option String) (n : Nat) :
    (((List.range n).flatMap (fun k =>
      [Event.databases ctx (g k),
       Event.sleep (((k + 1 : Nat) : Int) * 100 * time.Millisecond)])).filter Event.isProbe).length
      = n := by
  induction n with
  | zero => rfl
  | succ n ih =>
    rw [List.range_succ, List.flatMap_append, List.filter_append, List.length_append, ih]
    simp [Event.isProbe]

theorem backoff_sleep_total (ctx : Context) (g : Nat → Option String) (n : Nat) :
    2 * (((List.range n).flatMap (fun k =>
      [Event.databases ctx (g k),
       Event.sleep (((k + 1 : Nat) : Int) * 100 * time.Millisecond)])).map Event.slept).sum
      = n * (n + 1) * 100000000 := by
  induction n with
  | zero => simp
  | succ n ih =>
    rw [List.range_succ, List.flatMap_append, List.map_append, List.sum_append, Nat.mul_add, ih]
    have hs : time.sleepTime (((n + 1 : Nat) : Int) * 100 * time.Millisecond) = (n + 1) * 100000000 := by
      unfold time.sleepTime time.Millisecond
      have : ((n + 1 : Nat) : Int) * 100 * 1000000 = (((n + 1) * 100000000 : Nat) : Int) := by
        push_cast
        ring
      rw [this, Int.toNat_ofNat]
    simp only [List.flatMap_cons, List.flatMap_nil, List.append_nil, List.map_cons, List.map_nil,
      List.sum_cons, List.sum_nil, Event.slept, hs]
    ring

/-- C6 (within the range of `time.Duration`): for every `n` up to 92233720368,
when the first `n` probes fail, probe `n + 1` succeeds and the context is still
live once that probe has returned (hence at every earlier moment),
`database.StatusCheck`, given room for `n + 1` iterations, returns nil after
exactly `n + 1` probes; after the `k`-th failed probe, and only there, it sleeps
`k * 100` ms, in total `100 * n(n+1)/2` ms, and nothing follows the successful
probe. -/
theorem StatusCheck_linear_backoff {σ : Type} (fuel n : Nat) (ctx : Context) (client : Client σ)
    (s : σ) (now : Nat) (hn : n ≤ maxBackoffAttempt) (hfuel : n + 1 ≤ fuel)
    (hfail : ∀ k < n, (probeReply ctx client s now k).err ≠ none)
    (hok : (probeReply ctx client s now n).err = none)
    (hlive : ctx.Err ((probePoint ctx client 1 s now n).2 +
      (probeReply ctx client s now n).elapsed) = none) :
    ∃ r, database.StatusCheck fuel ctx client s now = some r ∧ r.val = none ∧
      r.trace = (List.range n).flatMap (fun k =>
          [Event.databases ctx (probeReply ctx client s now k).err,
           Event.sleep (((k + 1 : Nat) : Int) * 100 * time.Millisecond)]) ++
        [Event.databases ctx none] ∧
      (r.trace.filter Event.isProbe).length = n + 1 ∧
      (r.trace.map Event.slept).sum = 100 * (n * (n + 1) / 2) * 1000000 := by
  have hmax : maxBackoffAttempt = 92233720368 := rfl
  have hrun := StatusCheck_run ctx client fuel n s now (by norm_num; omega) hfuel hfail hok hlive
  have htrace : (List.range n).flatMap (fun k =>
        [Event.databases ctx (probeReply ctx client s now k).err,
         Event.sleep (database.StatusCheck.backoff ((1 + k : Nat) : Int))]) =
      (List.range n).flatMap (fun k =>
        [Event.databases ctx (probeReply ctx client s now k).err,
         Event.sleep (((k + 1 : Nat) : Int) * 100 * time.Millisecond)]) := by
    apply flatMap_congr_mem
    intro k hk
    have hk2 : k < n := List.mem_range.1 hk
    rw [backoff_of_le (1 + k) (by omega), Nat.add_comm 1 k]
  rw [htrace] at hrun
  refine ⟨_, hrun, rfl, rfl, ?_, ?_⟩
  · simp only [List.filter_append, List.length_append, backoff_probes_count]
    simp [Event.isProbe]
  · have h2 := backoff_sleep_total ctx (fun k => (probeReply ctx client s now k).err) n
    simp only [List.map_append, List.sum_append, List.map_cons, List.map_nil, List.sum_cons,
      List.sum_nil, Event.slept]
    obtain ⟨m, hm⟩ := Nat.even_mul_succ_self n
    have hm2 : n * (n + 1) = 2 * m := by omega
    rw [hm2] at h2 ⊢
    rw [Nat.mul_div_cancel_left m (by norm_num)]
    omega

/-- C6, witness: a server that becomes reachable at its third probe, probed
from time 0 under a context that is never done. -/
theorem StatusCheck_linear_backoff_witness :
    ∃ r, database.StatusCheck 5 Background (fixtures.failsFirst 2) 0 0 = some r ∧ r.val = none ∧
      r.trace = (List.range 2).flatMap (fun k =>
          [Event.databases Background (probeReply Background (fixtures.failsFirst 2) 0 0 k).err,
           Event.sleep (((k + 1 : Nat) : Int) * 100 * time.Millisecond)]) ++
        [Event.databases Background none] ∧
      (r.trace.filter Event.isProbe).length = 2 + 1 ∧
      (r.trace.map Event.slept).sum = 100 * (2 * (2 + 1) / 2) * 1000000 :=
  StatusCheck_linear_backoff 5 2 Background (fixtures.failsFirst 2) 0 0 (by decide) (by decide)
    (by decide) (by decide) (by decide)

theorem Background_Err (t : Nat) : Background.Err t = none := rfl

theorem failsFirst_probePoint (ctx : Context) (m : Nat) :
    ∀ (k a s now : Nat), (probePoint ctx (fixtures.failsFirst m) a s now k).1 = s + k
  | 0, _, _, _ => rfl
  | k + 1, a, s, now => by
    simp only [probePoint]
    rw [failsFirst_probePoint ctx m k]
    simp only [fixtures.failsFirst]
    omega

theorem failsFirst_probe_err (ctx : Context) (m k : Nat) :
    (probeReply ctx (fixtures.failsFirst m) 0 0 k).err
      = if k < m then some "unreachable" else none := by
  unfold probeReply
  rw [failsFirst_probePoint ctx m k 1 0 0]
  simp [fixtures.failsFirst]

theorem backoff_past_max :
    database.StatusCheck.backoff ((1 + maxBackoffAttempt : Nat) : Int) = -9223372036809551616 := by
  decide

/-- C6, counterexample: a server whose first 92233720369 probes fail and whose
next probe succeeds, polled under a context that is never done.  The back-off
after the last failed probe, 92233720369 * 100 ms, does not fit a 64-bit
`time.Duration`: the value handed to `time.Sleep` is negative, so the code
does not sleep there at all. -/
theorem StatusCheck_backoff_wraps_around :
    (∀ k < maxBackoffAttempt + 1,
      (probeReply Background (fixtures.failsFirst (maxBackoffAttempt + 1)) 0 0 k).err ≠ none) ∧
    (probeReply Background (fixtures.failsFirst (maxBackoffAttempt + 1)) 0 0
      (maxBackoffAttempt + 1)).err = none ∧
    (∃ r pre, database.StatusCheck (maxBackoffAttempt + 1 + 1) Background
        (fixtures.failsFirst (maxBackoffAttempt + 1)) 0 0 = some r ∧ r.val = none ∧
      r.trace = pre ++ [Event.databases Background (some "unreachable"),
        Event.sleep (-9223372036809551616), Event.databases Background none]) ∧
    (-9223372036809551616 : Int) ≠ ((maxBackoffAttempt + 1 : Nat) : Int) * 100 * time.Millisecond ∧
    time.sleepTime (-9223372036809551616) = 0 := by
  have hfail : ∀ k < maxBackoffAttempt + 1,
      (probeReply Background (fixtures.failsFirst (maxBackoffAttempt + 1)) 0 0 k).err ≠ none := by
    intro k hk
    rw [failsFirst_probe_err, if_pos hk]
    simp
  have hok : (probeReply Background (fixtures.failsFirst (maxBackoffAttempt + 1)) 0 0
      (maxBackoffAttempt + 1)).err = none := by
    rw [failsFirst_probe_err, if_neg (lt_irrefl _)]
  refine ⟨hfail, hok, ?_, by decide, by decide⟩
  have hrun := StatusCheck_run Background (fixtures.failsFirst (maxBackoffAttempt + 1))
    (maxBackoffAttempt + 1 + 1) (maxBackoffAttempt + 1) 0 0 (by decide) (le_refl _) hfail hok rfl
  have hlast := failsFirst_probe_err Background (maxBackoffAttempt + 1) maxBackoffAttempt
  rw [if_pos (Nat.lt_succ_self _)] at hlast
  rw [List.range_succ, List.flatMap_append] at hrun
  simp only [List.flatMap_cons, List.flatMap_nil, List.append_nil, hlast, backoff_past_max]
    at hrun
  rw [hrun]
  exact ⟨_, (List.range maxBackoffAttempt).flatMap (fun k =>
    [Event.databases Background
        (probeReply Background (fixtures.failsFirst (maxBackoffAttempt + 1)) 0 0 k).err,
     Event.sleep (database.StatusCheck.backoff ((1 + k : Nat) : Int))]), rfl, rfl,
    List.append_assoc _ _ _⟩

theorem fresh_context_live (now : Nat) :
    (WithTimeout Background now (time.Millisecond * 1000)).Err now = none := by
  simp [WithTimeout, Background, Context.Err, time.Millisecond]

/-- A successful run of the first loop of `Migrate` on a database that follows
the data model leaves every name of the list present with kind document and
keeps every collection that was there. -/
theorem documents_success_creates {σ : Type} (db : Database σ)
    (colls : σ → String → Option CollectionType) (h : FollowsDataModel db colls) :
    ∀ (names : List String) (s : σ) (now : Nat),
    (dbschema.Migrate.documents db names s now).val = none →
    (∀ c ∈ names, colls (dbschema.Migrate.documents db names s now).st c
      = some CollectionType.CollectionTypeDocument) ∧
    (∀ x k, colls s x = some k → colls (dbschema.Migrate.documents db names s now).st x = some k)
  | [], s, now, _ => by simp [dbschema.Migrate.documents]
  | c :: cs, s, now, hv => by
    simp only [dbschema.Migrate.documents] at hv ⊢
    split at hv
    · simp at hv
    · rename_i herr
      simp only [herr] at hv ⊢
      have hcr := h.created s now (WithTimeout Background now (time.Millisecond * 1000)) c
        CollectionType.CollectionTypeDocument herr
      have hkeep : ∀ x k, colls s x = some k →
          colls (db.CreateCollection s now (WithTimeout Background now (time.Millisecond * 1000)) c
            CollectionType.CollectionTypeDocument).st x = some k := by
        intro x k hx
        rw [hcr]
        by_cases hxc : x = c
        · subst hxc
          by_cases hk : k = CollectionType.CollectionTypeDocument
          · simp [hk]
          · exact absurd herr (h.other_kind s now _ x _ k hx hk)
        · simp [Function.update, hxc, hx]
      have ih := documents_success_creates db colls h cs _ _ hv
      refine ⟨?_, fun x k hx => ih.2 x k (hkeep x k hx)⟩
      intro x hx
      rcases List.mem_cons.1 hx with rfl | hx
      · apply ih.2
        rw [hcr]
        simp
      · exact ih.1 x hx

theorem edges_success_creates {σ : Type} (db : Database σ)
    (colls : σ → String → Option CollectionType) (h : FollowsDataModel db colls) :
    ∀ (names : List String) (s : σ) (now : Nat),
    (dbschema.Migrate.edges db names s now).val = none →
    (∀ c ∈ names, colls (dbschema.Migrate.edges db names s now).st c
      = some CollectionType.CollectionTypeEdge) ∧
    (∀ x k, colls s x = some k → colls (dbschema.Migrate.edges db names s now).st x = some k)
  | [], s, now, _ => by simp [dbschema.Migrate.edges]
  | c :: cs, s, now, hv => by
    simp only [dbschema.Migrate.edges] at hv ⊢
    split at hv
    · simp at hv
    · rename_i herr
      simp only [herr] at hv ⊢
      have hcr := h.created s now (WithTimeout Background now (time.Millisecond * 1000)) c
        CollectionType.CollectionTypeEdge herr
      have hkeep : ∀ x k, colls s x = some k →
          colls (db.CreateCollection s now (WithTimeout Background now (time.Millisecond * 1000)) c
            CollectionType.CollectionTypeEdge).st x = some k := by
        intro x k hx
        rw [hcr]
        by_cases hxc : x = c
        · subst hxc
          by_cases hk : k = CollectionType.CollectionTypeEdge
          · simp [hk]
          · exact absurd herr (h.other_kind s now _ x _ k hx hk)
        · simp [Function.update, hxc, hx]
      have ih := edges_success_creates db colls h cs _ _ hv
      refine ⟨?_, fun x k hx => ih.2 x k (hkeep x k hx)⟩
      intro x hx
      rcases List.mem_cons.1 hx with rfl | hx
      · apply ih.2
        rw [hcr]
        simp
      · exact ih.1 x hx

/-- A run of the first loop of `Migrate` whose names are all present with kind
document succeeds and changes no collection. -/
theorem documents_rerun {σ : Type} (db : Database σ)
    (colls : σ → String → Option CollectionType) (h : FollowsDataModel db colls) :
    ∀ (names : List String) (s : σ) (now : Nat),
    (∀ c ∈ names, colls s c = some CollectionType.CollectionTypeDocument) →
    (dbschema.Migrate.documents db names s now).val = none ∧
    colls (dbschema.Migrate.documents db names s now).st = colls s
  | [], s, now, _ => by simp [dbschema.Migrate.documents]
  | c :: cs, s, now, hall => by
    have hs := h.same_kind s now (WithTimeout Background now (time.Millisecond * 1000)) c
      CollectionType.CollectionTypeDocument (fresh_context_live now) (hall c (by simp))
    have ih := documents_rerun db colls h cs
      (db.CreateCollection s now (WithTimeout Background now (time.Millisecond * 1000)) c
        CollectionType.CollectionTypeDocument).st
      (now + (db.CreateCollection s now (WithTimeout Background now (time.Millisecond * 1000)) c
        CollectionType.CollectionTypeDocument).elapsed)
      (fun x hx => by rw [hs.2]; exact hall x (by simp [hx]))
    simp only [dbschema.Migrate.documents, hs.1]
    exact ⟨ih.1, ih.2.trans hs.2⟩

theorem edges_rerun {σ : Type} (db : Database σ)
    (colls : σ → String → Option CollectionType) (h : FollowsDataModel db colls) :
    ∀ (names : List String) (s : σ) (now : Nat),
    (∀ c ∈ names, colls s c = some CollectionType.CollectionTypeEdge) →
    (dbschema.Migrate.edges db names s now).val = none ∧
    colls (dbschema.Migrate.edges db names s now).st = colls s
  | [], s, now, _ => by simp [dbschema.Migrate.edges]
  | c :: cs, s, now, hall => by
    have hs := h.same_kind s now (WithTimeout Background now (time.Millisecond * 1000)) c
      CollectionType.CollectionTypeEdge (fresh_context_live now) (hall c (by simp))
    have ih := edges_rerun db colls h cs
      (db.CreateCollection s now (WithTimeout Background now (time.Millisecond * 1000)) c
        CollectionType.CollectionTypeEdge).st
      (now + (db.CreateCollection s now (WithTimeout Background now (time.Millisecond * 1000)) c
        CollectionType.CollectionTypeEdge).elapsed)
      (fun x hx => by rw [hs.2]; exact hall x (by simp [hx]))
    simp only [dbschema.Migrate.edges, hs.1]
    exact ⟨ih.1, ih.2.trans hs.2⟩

/-- C4: on a database whose `CreateCollection` follows the data model of the
specification, when a call of `dbschema.Migrate` returns nil, a second call
with the same lists, made from the state the first one left (at any time and
with any context), returns nil as well and leaves the collections of the
database, name by name and kind by kind, as the first call left them. -/
theorem Migrate_idempotent {σ : Type} (db : Database σ)
    (colls : σ → String → Option CollectionType) (h : FollowsDataModel db colls)
    (ctx ctx2 : Context) (collections edges : List String) (s : σ) (now now2 : Nat)
    (hfirst : (dbschema.Migrate ctx db collections edges s now).val = none) :
    (dbschema.Migrate ctx2 db collections edges
      (dbschema.Migrate ctx db collections edges s now).st now2).val = none ∧
    colls (dbschema.Migrate ctx2 db collections edges
      (dbschema.Migrate ctx db collections edges s now).st now2).st =
      colls (dbschema.Migrate ctx db collections edges s now).st := by
  simp only [dbschema.Migrate] at hfirst
  rcases hd : (dbschema.Migrate.documents db collections s now).val with _ | err
  · rw [hd] at hfirst
    simp only at hfirst
    have hdoc := documents_success_creates db colls h collections s now hd
    have hedge := edges_success_creates db colls h edges _ _ hfirst
    have hst : (dbschema.Migrate ctx db collections edges s now).st =
        (dbschema.Migrate.edges db edges (dbschema.Migrate.documents db collections s now).st
          (dbschema.Migrate.documents db collections s now).now).st := by
      simp only [dbschema.Migrate, hd]
    rw [hst]
    have r1 := documents_rerun db colls h collections
      (dbschema.Migrate.edges db edges (dbschema.Migrate.documents db collections s now).st
          (dbschema.Migrate.documents db collections s now).now).st now2
      (fun c hc => hedge.2 c _ (hdoc.1 c hc))
    have r2 := edges_rerun db colls h edges
      (dbschema.Migrate.documents db collections
        (dbschema.Migrate.edges db edges (dbschema.Migrate.documents db collections s now).st
          (dbschema.Migrate.documents db collections s now).now).st now2).st
      (dbschema.Migrate.documents db collections
        (dbschema.Migrate.edges db edges (dbschema.Migrate.documents db collections s now).st
          (dbschema.Migrate.documents db collections s now).now).st now2).now
      (fun c hc => by rw [r1.2]; exact hedge.1 c hc)
    simp only [dbschema.Migrate, r1.1]
    exact ⟨r2.1, r2.2.trans r1.2⟩
  · rw [hd] at hfirst
    simp at hfirst

theorem modelDB_follows : FollowsDataModel fixtures.modelDB fixtures.modelColls where
  same_kind := by
    intro s now ctx name kind _ hk
    simp only [fixtures.modelColls] at hk
    simp [fixtures.modelDB, hk]
  other_kind := by
    intro s now ctx name kind k hk hne
    simp only [fixtures.modelColls] at hk
    simp [fixtures.modelDB, hk, hne]
  created := by
    intro s now ctx name kind herr
    funext x
    simp only [fixtures.modelDB] at herr ⊢
    rcases hl : List.lookup name s with _ | k
    · simp only [hl, fixtures.modelColls, Function.update]
      by_cases hx : x = name
      · subst hx
        simp [List.lookup]
      · have hx2 : (x == name) = false := by simpa using hx
        simp [List.lookup, hx, hx2]
    · simp only [hl] at herr ⊢
      by_cases hk : k = kind
      · subst hk
        simp only [if_true, fixtures.modelColls, Function.update]
        by_cases hx : x = name
        · subst hx
          simp [hl]
        · simp [hx]
      · simp [hk] at herr

/-- C4, witness: the reference database, empty at first, migrated twice with
the collections "user", "order" and the edge collection "placed". -/
theorem Migrate_idempotent_witness :
    (dbschema.Migrate Background fixtures.modelDB ["user", "order"] ["placed"] [] 0).val = none ∧
    (dbschema.Migrate Background fixtures.modelDB ["user", "order"] ["placed"]
      (dbschema.Migrate Background fixtures.modelDB ["user", "order"] ["placed"] [] 0).st 7).val
        = none ∧
    fixtures.modelColls (dbschema.Migrate Background fixtures.modelDB ["user", "order"] ["placed"]
      (dbschema.Migrate Background fixtures.modelDB ["user", "order"] ["placed"] [] 0).st 7).st =
      fixtures.modelColls
        (dbschema.Migrate Background fixtures.modelDB ["user", "order"] ["placed"] [] 0).st :=
  ⟨by decide,
   Migrate_idempotent fixtures.modelDB fixtures.modelColls modelDB_follows Background Background
    ["user", "order"] ["placed"] [] 0 7 (by decide)⟩

/-- C8 (evaluation of the code under a cancelled caller): with a caller
context that was cancelled before the call and a database that refuses every
call made under a context that is done, `dbschema.Migrate` and `dbschema.Seed`
both return nil: every call they issue runs under a fresh context derived from
`context.Background()`, live at the time of the call, and the caller's context
is not consulted. -/
theorem Migrate_and_Seed_ignore_cancelled_caller :
    fixtures.cancelledCtx.Err 5 = some context.Error.Canceled ∧
    (dbschema.Migrate fixtures.cancelledCtx fixtures.honouringDB ["user", "order"] ["placed"] () 5).val
      = none ∧
    (dbschema.Migrate fixtures.cancelledCtx fixtures.honouringDB ["user", "order"] ["placed"] () 5).trace
      = [Event.createCollection ⟨some (1000000005, context.Error.DeadlineExceeded)⟩ "user"
          CollectionType.CollectionTypeDocument none,
         Event.createCollection ⟨some (1000000005, context.Error.DeadlineExceeded)⟩ "order"
          CollectionType.CollectionTypeDocument none,
         Event.createCollection ⟨some (1000000005, context.Error.DeadlineExceeded)⟩ "placed"
          CollectionType.CollectionTypeEdge none] ∧
    (dbschema.Seed fixtures.cancelledCtx fixtures.honouringDB "RETURN 1" () 5).val = none ∧
    (dbschema.Seed fixtures.cancelledCtx fixtures.honouringDB "RETURN 1" () 5).trace
      = [Event.query ⟨some (5000000005, context.Error.DeadlineExceeded)⟩ "RETURN 1" []
          none] := by
  refine ⟨by decide, by decide, by decide, by decide, by decide⟩

/-- The result of `Migrate` and of `Seed` does not depend on the context the
caller passes. -/
theorem Migrate_Seed_context_unused {σ : Type} (ctx ctx2 : Context) (db : Database σ)
    (collections edges : List String) (seedAql : String) (s : σ) (now : Nat) :
    dbschema.Migrate ctx db collections edges s now = dbschema.Migrate ctx2 db collections edges s now ∧
    dbschema.Seed ctx db seedAql s now = dbschema.Seed ctx2 db seedAql s now :=
  ⟨rfl, rfl⟩


theorem NewUnit_returns_teardown {κ σ : Type} (fuel : Nat)
    (drv : database.Constructors κ (Client σ)) (c : docker.Container) (dbName : String)
    (data : dbtest.Data) (s : σ) (now : Nat) (log : dbtest.Logs) (db : Database σ)
    (td : dbtest.Logs → dbtest.Logs × List Event)
    (hret : (dbtest.NewUnit fuel drv c dbName data s now).map (fun r => r.val) =
      some (testing.Outcome.returned (log, db, td))) :
    td = dbtest.teardown := by
  unfold dbtest.NewUnit at hret
  simp only at hret
  repeat' split at hret
  all_goals simp at hret
  all_goals exact hret.2.2.symm

theorem NewIntegration_exposes_teardown {κ σ : Type} (fuel : Nat)
    (drv : database.Constructors κ (Client σ)) (keygen : Except String auth.PrivateKey)
    (c : docker.Container) (dbName : String) (data : dbtest.Data) (s : σ) (now : Nat)
    (test : dbtest.Test σ)
    (hret : (dbtest.NewIntegration fuel drv keygen c dbName data s now).map (fun r => r.val) =
      some (testing.Outcome.returned test)) :
    test.Teardown = dbtest.teardown := by
  unfold dbtest.NewIntegration at hret
  rcases hu : dbtest.NewUnit fuel drv c dbName data s now with _ | u
  · rw [hu] at hret
    simp at hret
  · rw [hu] at hret
    simp only at hret
    rcases hv : u.val with ⟨log, db, td⟩ | msg | _
    · have htd := NewUnit_returns_teardown fuel drv c dbName data s now log db td
        (by rw [hu]; simp [hv])
      rw [hv] at hret
      simp only at hret
      split at hret
      all_goals simp at hret
      rw [← hret, htd]
    · rw [hv] at hret
      simp at hret
    · rw [hv] at hret
      simp at hret

/-- C9 (as the code behaves): the closure a returning `NewUnit` hands out is
`teardown`, and so is the `Teardown` field of the test a returning
`NewIntegration` builds.  Invoked on any logger state, it syncs the logger,
flushes the writer and prints the captured logs between two banner lines, and
that is all it does: neither its first invocation nor a second one on the
state the first left issues a stop of a container.  Stopping is the separate
`dbtest.StopDB`, which issues exactly one stop, of the container it is given. -/
theorem teardown_prints_logs_and_stops_nothing {κ σ : Type} (fuel : Nat)
    (drv : database.Constructors κ (Client σ)) (c : docker.Container) (dbName : String)
    (data : dbtest.Data) (s : σ) (now : Nat) (log : dbtest.Logs) (db : Database σ)
    (td : dbtest.Logs → dbtest.Logs × List Event)
    (hret : (dbtest.NewUnit fuel drv c dbName data s now).map (fun r => r.val) =
      some (testing.Outcome.returned (log, db, td)))
    (l : dbtest.Logs) :
    (td l).2 =
      [Event.logSync, Event.writerFlush,
       Event.stdout "******************** LOGS ********************\n",
       Event.stdout (l.buf ++ l.pending),
       Event.stdout "******************** LOGS ********************\n"] ∧
    (td (td l).1).2 =
      [Event.logSync, Event.writerFlush,
       Event.stdout "******************** LOGS ********************\n",
       Event.stdout (l.buf ++ l.pending),
       Event.stdout "******************** LOGS ********************\n"] ∧
    (∀ id, Event.stopContainer id ∉ (td l).2 ++ (td (td l).1).2) ∧
    (∀ keygen test,
      (dbtest.NewIntegration fuel drv keygen c dbName data s now).map (fun r => r.val) =
        some (testing.Outcome.returned test) → test.Teardown = td) ∧
    dbtest.StopDB c = [Event.stopContainer c.ID] := by
  have htd := NewUnit_returns_teardown fuel drv c dbName data s now log db td hret
  subst htd
  refine ⟨rfl, ?_, ?_, ?_, rfl⟩
  · simp [dbtest.teardown]
  · intro id
    simp [dbtest.teardown]
  · intro keygen test h
    exact NewIntegration_exposes_teardown fuel drv keygen c dbName data s now test h

/-- C9, witness: a harness run against a server that answers its second
probe, with two document collections, one edge collection and a seed script;
the closure it returns is invoked with the log line "ready" pending. -/
theorem teardown_prints_logs_and_stops_nothing_witness :
    (dbtest.NewUnit 3 (fixtures.dialsFailsFirst 1) ⟨"c1", "localhost:8529"⟩ "stem"
        ⟨["user", "order"], ["placed"], "RETURN 1"⟩ 0 0).map (fun r => r.val) =
      some (testing.Outcome.returned (⟨"", ""⟩, fixtures.plainDB, dbtest.teardown)) ∧
    (dbtest.teardown ⟨"ready\n", ""⟩).2 =
      [Event.logSync, Event.writerFlush,
       Event.stdout "******************** LOGS ********************\n",
       Event.stdout ("" ++ "ready\n"),
       Event.stdout "******************** LOGS ********************\n"] ∧
    (dbtest.teardown (dbtest.teardown ⟨"ready\n", ""⟩).1).2 =
      [Event.logSync, Event.writerFlush,
       Event.stdout "******************** LOGS ********************\n",
       Event.stdout ("" ++ "ready\n"),
       Event.stdout "******************** LOGS ********************\n"] ∧
    (∀ id, Event.stopContainer id ∉ (dbtest.teardown ⟨"ready\n", ""⟩).2 ++
      (dbtest.teardown (dbtest.teardown ⟨"ready\n", ""⟩).1).2) ∧
    (∀ keygen test,
      (dbtest.NewIntegration 3 (fixtures.dialsFailsFirst 1) keygen ⟨"c1", "localhost:8529"⟩ "stem"
        ⟨["user", "order"], ["placed"], "RETURN 1"⟩ 0 0).map (fun r => r.val) =
        some (testing.Outcome.returned test) → test.Teardown = dbtest.teardown) ∧
    dbtest.StopDB ⟨"c1", "localhost:8529"⟩ = [Event.stopContainer "c1"] :=
  ⟨rfl, teardown_prints_logs_and_stops_nothing 3 (fixtures.dialsFailsFirst 1)
    ⟨"c1", "localhost:8529"⟩ "stem" ⟨["user", "order"], ["placed"], "RETURN 1"⟩ 0 0 ⟨"", ""⟩
    fixtures.plainDB dbtest.teardown rfl ⟨"ready\n", ""⟩⟩

/-- C9, counterexample: a harness run that returns, against a server that
answers its second probe; the log line "ready" is pending when the closure
the run returned is invoked for the first time.  Neither the run nor that
invocation issues a stop of any container: the number of stops is 0, not 1. -/
theorem teardown_issues_no_stop :
    (dbtest.NewUnit 3 (fixtures.dialsFailsFirst 1) ⟨"c1", "localhost:8529"⟩ "stem"
        ⟨["user", "order"], ["placed"], "RETURN 1"⟩ 0 0).map (fun r => r.val) =
      some (testing.Outcome.returned (⟨"", ""⟩, fixtures.plainDB, dbtest.teardown)) ∧
    ((dbtest.NewUnit 3 (fixtures.dialsFailsFirst 1) ⟨"c1", "localhost:8529"⟩ "stem"
        ⟨["user", "order"], ["placed"], "RETURN 1"⟩ 0 0).map (fun r =>
          (r.trace.filter (fun e => decide (e = Event.stopContainer "c1"))).length)) = some 0 ∧
    ((dbtest.teardown ⟨"ready\n", ""⟩).2.filter
      (fun e => decide (e = Event.stopContainer "c1"))).length = 0 := by
  refine ⟨rfl, by decide, by decide⟩

/-- C10 (evaluation of the code): for the authenticator the harness builds in
`NewAuth` from any generated key, the token `dbtest.InvalidToken` returns is
signed with the very key that authenticator has registered under the token's
key identifier; it is the token `Token` issues for subject "11" with roles
ADMIN and USER, and it passes verification against the harness's key lookup. -/
theorem InvalidToken_signed_with_registered_key (privateKey : auth.PrivateKey) (now : Nat) :
    ∃ a tok, dbtest.NewAuth (Except.ok privateKey) = testing.Outcome.returned a ∧
      dbtest.InvalidToken a now =
        ([Event.testLog "Generating token for test ..."], testing.Outcome.returned tok) ∧
      tok.signedBy = privateKey ∧
      a.keyLookup tok.kid = some tok.signedBy ∧
      dbtest.InvalidToken a now = dbtest.Token a "11" ["ADMIN", "USER"] now ∧
      a.ValidateToken tok now = Except.ok tok.claims := by
  refine ⟨⟨"4754d86b-7a6d-4df5-9c65-224741361492",
      auth.NewMap [("4754d86b-7a6d-4df5-9c65-224741361492", privateKey)]⟩,
    ⟨"4754d86b-7a6d-4df5-9c65-224741361492",
      ⟨"11", "service project", now + time.Hour.toNat, now, ["ADMIN", "USER"]⟩, privateKey⟩,
    ?_, ?_, rfl, ?_, rfl, ?_⟩
  · simp [dbtest.NewAuth, auth.New, auth.NewMap, List.lookup]
  · simp [dbtest.InvalidToken, auth.Auth.GenerateToken, auth.NewMap, List.lookup]
  · simp [auth.NewMap, List.lookup]
  · simp [auth.Auth.ValidateToken, auth.NewMap, List.lookup]
